import Mathlib

/-!
Verification of the group text/voice communication server (src/server.py).

The development shallowly embeds the server's data model and the relevant
operations: the handshake phase of handle_new_connection, the post-wake
admission phase, the per-mode relay step of handle_accepted_client, the
broadcast fan-out of broadcast_message / broadcast_audio, the operator
accept/reject/stop commands of operator_cli, and the id allocation of the
client registry and pending admission table.  Python byte strings are
List Nat, Python str is List Char, connection handles are Nat, and the
lock discipline of broadcast/disconnect is embedded as explicit action
traces.
-/

namespace GroupComm

/-- Connection handle (Python socket object), abstracted to a key. -/
abbrev Conn := Nat

/-- A Python byte. -/
abbrev Byte := Nat

/-- A Python str, as its character list. -/
abbrev PyStr := List Char

/-- Characters stripped by Python str.strip() with no argument
(ASCII whitespace; Python also strips other Unicode space characters,
which no message of this server contains). -/
def isPySpace (c : Char) : Bool :=
  c = ' ' || c = '\t' || c = '\n' || c = '\r' || c = Char.ofNat 11 || c = Char.ofNat 12

/-- Python str.lstrip(). -/
def pyLStrip (s : PyStr) : PyStr := s.dropWhile isPySpace

/-- Python str.rstrip(). -/
def pyRStrip (s : PyStr) : PyStr := (s.reverse.dropWhile isPySpace).reverse

/-- Python str.strip(). -/
def pyStrip (s : PyStr) : PyStr := pyRStrip (pyLStrip s)

/-- Python str.lower() (ASCII; all commands compared by the server are ASCII). -/
def pyLower (s : PyStr) : PyStr := s.map Char.toLower

/-- Is a byte a UTF-8 continuation byte in the closed range [lo, hi]? -/
def contOk (lo hi b : Nat) : Bool := lo ≤ b && b ≤ hi

/-- Decode one UTF-8 sequence headed by non-ASCII lead byte b, given the
following bytes.  Returns the decoded character (or none on a malformed
sequence) together with how many bytes after the lead are consumed; on a
malformed sequence the consumed count covers the valid continuation bytes
seen, matching the maximal-subpart skipping of bytes.decode(errors =
a quoted ignore). -/
def utf8Head (b : Nat) (rest : List Byte) : Option Char × Nat :=
  if 0xC2 ≤ b && b ≤ 0xDF then
    match rest with
    | b2 :: _ =>
      if contOk 0x80 0xBF b2 then
        (some (Char.ofNat ((b - 0xC0) * 0x40 + (b2 - 0x80))), 1)
      else (none, 0)
    | [] => (none, 0)
  else if 0xE0 ≤ b && b ≤ 0xEF then
    let lo2 := if b = 0xE0 then 0xA0 else 0x80
    let hi2 := if b = 0xED then 0x9F else 0xBF
    match rest with
    | b2 :: b3 :: _ =>
      if contOk lo2 hi2 b2 then
        if contOk 0x80 0xBF b3 then
          (some (Char.ofNat ((b - 0xE0) * 0x1000 + (b2 - 0x80) * 0x40 + (b3 - 0x80))), 2)
        else (none, 1)
      else (none, 0)
    | [b2] => if contOk lo2 hi2 b2 then (none, 1) else (none, 0)
    | [] => (none, 0)
  else if 0xF0 ≤ b && b ≤ 0xF4 then
    let lo2 := if b = 0xF0 then 0x90 else 0x80
    let hi2 := if b = 0xF4 then 0x8F else 0xBF
    match rest with
    | b2 :: b3 :: b4 :: _ =>
      if contOk lo2 hi2 b2 then
        if contOk 0x80 0xBF b3 then
          if contOk 0x80 0xBF b4 then
            (some (Char.ofNat
              ((b - 0xF0) * 0x40000 + (b2 - 0x80) * 0x1000 + (b3 - 0x80) * 0x40 + (b4 - 0x80))), 3)
          else (none, 2)
        else (none, 1)
      else (none, 0)
    | [b2, b3] =>
      if contOk lo2 hi2 b2 then
        if contOk 0x80 0xBF b3 then (none, 2) else (none, 1)
      else (none, 0)
    | [b2] => if contOk lo2 hi2 b2 then (none, 1) else (none, 0)
    | [] => (none, 0)
  else (none, 0)

/-- Worker for utf8DecodeIgnore; structural recursion on a fuel that
dominates the list length (each step consumes at least one byte). -/
def utf8DecodeGo : Nat → List Byte → PyStr
  | 0, _ => []
  | _ + 1, [] => []
  | fuel + 1, b :: rest =>
    if b ≤ 0x7F then
      Char.ofNat b :: utf8DecodeGo fuel rest
    else
      match utf8Head b rest with
      | (some c, k) => c :: utf8DecodeGo fuel (rest.drop k)
      | (none, k) => utf8DecodeGo fuel (rest.drop k)

/-- Python bytes.decode with errors ignored (UTF-8): decodes valid
sequences and drops undecodable subparts. -/
def utf8DecodeIgnore (l : List Byte) : PyStr := utf8DecodeGo l.length l

/-- Decimal rendering of a Nat, as Python str(n) / f-string interpolation. -/
def natStr (n : Nat) : PyStr := (Nat.repr n).data

/-! ### Dictionaries (Python dict as an insertion-ordered association list) -/

/-- Python `k in d`. -/
def dictHas [DecidableEq α] (d : List (α × β)) (k : α) : Bool :=
  d.any (fun p => decide (p.1 = k))

/-- Python `d[k] = v`: replace in place if the key exists, else append. -/
def dictSet [DecidableEq α] (d : List (α × β)) (k : α) (v : β) : List (α × β) :=
  if dictHas d k then d.map (fun p => if p.1 = k then (k, v) else p)
  else d ++ [(k, v)]

/-- Python `d.pop(k, None)`, keeping only the resulting dict. -/
def dictPop [DecidableEq α] (d : List (α × β)) (k : α) : List (α × β) :=
  d.filter (fun p => !decide (p.1 = k))

/-- Python `d.get(k)`. -/
def dictGet [DecidableEq α] (d : List (α × β)) (k : α) : Option β :=
  (d.find? (fun p => decide (p.1 = k))).map Prod.snd

/-- Python `list(d.keys())`. -/
def dictKeys (d : List (α × β)) : List α := d.map Prod.fst

/-! ### Data model -/

/-- One entry of the `clients` dict: clients[conn] has id, name, addr. -/
structure ClientInfo where
  id : Nat
  name : PyStr
  addr : Nat × Nat
deriving DecidableEq

/-- One entry of the `pending` dict: conn, name, addr, the one-shot
threading.Event (set or not) and the tri-state decision. -/
structure PendingInfo where
  conn : Conn
  name : PyStr
  addr : Nat × Nat
  eventSet : Bool
  decision : Option Bool
deriving DecidableEq

/-- The server's shared mutable state: both id counters and both tables
(`next_user_id`, `clients`, `next_pending_id`, `pending`). -/
structure ServerState where
  nextUserId : Nat
  clients : List (Conn × ClientInfo)
  nextPendingId : Nat
  pending : List (Nat × PendingInfo)
deriving DecidableEq

/-- Module-level initial state: both counters start at 1, both dicts empty. -/
def initState : ServerState :=
  { nextUserId := 1, clients := [], nextPendingId := 1, pending := [] }

/-- Ids currently stored in the client registry. -/
def clientIds (st : ServerState) : List Nat := st.clients.map (fun e => e.2.id)

/-- Pending ids currently stored in the pending table. -/
def pendingIds (st : ServerState) : List Nat := dictKeys st.pending

/-- The accept branch of handle_new_connection: under clients_lock,
take the next user id, bump the counter, insert the client; return the
new state and the assigned id. -/
def registerClient (st : ServerState) (conn : Conn) (name : PyStr) (addr : Nat × Nat) :
    ServerState × Nat :=
  let uid := st.nextUserId
  ({ st with
      nextUserId := uid + 1,
      clients := dictSet st.clients conn { id := uid, name := name, addr := addr } }, uid)

/-- The pending-creation step of handle_new_connection: under
pending_lock, take the next pending id, bump the counter, insert the
entry with a fresh unset Event and decision None. -/
def createPending (st : ServerState) (conn : Conn) (name : PyStr) (addr : Nat × Nat) :
    ServerState × Nat :=
  let pid := st.nextPendingId
  ({ st with
      nextPendingId := pid + 1,
      pending := dictSet st.pending pid
        { conn := conn, name := name, addr := addr, eventSet := false, decision := none } }, pid)

/-- The registry mutation of _disconnect_conn (and of kick, which calls
it): pop the connection from the clients dict. -/
def removeClient (st : ServerState) (conn : Conn) : ServerState :=
  { st with clients := dictPop st.clients conn }

/-- The `pending.pop(pid, None)` a controller performs when it wakes. -/
def popPending (st : ServerState) (pid : Nat) : ServerState :=
  { st with pending := dictPop st.pending pid }

/-- The decision write of the accept/reject operator commands:
pending[pid] gets decision set and its event set, other entries untouched. -/
def resolveTable (pending : List (Nat × PendingInfo)) (pid : Nat) (accepted : Bool) :
    List (Nat × PendingInfo) :=
  pending.map (fun e =>
    if e.1 = pid then (e.1, { e.2 with decision := some accepted, eventSet := true }) else e)

/-- The accept/reject operator command on the pending table: if the pid is
present, write the decision and set the event and report the action;
otherwise leave the table unchanged and report a quoted No such pending
pid. Returns the new table and the printed line. -/
def resolveCmd (pending : List (Nat × PendingInfo)) (pid : Nat) (accepted : Bool) :
    List (Nat × PendingInfo) × PyStr :=
  if dictHas pending pid then
    (resolveTable pending pid accepted,
     (if accepted then "Accepted pending ".data else "Rejected pending ".data) ++ natStr pid)
  else (pending, "No such pending pid".data)

/-- The table-clearing of the stop command (pending.clear(), clients.clear()). -/
def clearTables (st : ServerState) : ServerState :=
  { st with clients := [], pending := [] }

/-- The state-mutating operations of a process run, for the id-allocation
invariants: client register/remove, pending create/resolve/pop, stop. -/
inductive SOp
  | reg (conn : Conn) (name : PyStr) (addr : Nat × Nat)
  | rem (conn : Conn)
  | createP (conn : Conn) (name : PyStr) (addr : Nat × Nat)
  | resolveP (pid : Nat) (accepted : Bool)
  | popP (pid : Nat)
  | stopAll

/-- Effect of one operation on the shared state. -/
def stepOp (st : ServerState) : SOp → ServerState
  | .reg c n a => (registerClient st c n a).1
  | .rem c => removeClient st c
  | .createP c n a => (createPending st c n a).1
  | .resolveP p acc => { st with pending := (resolveCmd st.pending p acc).1 }
  | .popP p => popPending st p
  | .stopAll => clearTables st

/-- A sequence of operations run left to right. -/
def runOps (st : ServerState) (ops : List SOp) : ServerState := ops.foldl stepOp st

/-! ### Broadcast fan-out -/

/-- The handles a broadcast loop attempts to send to: every key of the
clients dict except the excluded connection (exclude_conn = None excludes
nobody, as in broadcast_message called without exclude_conn). -/
def broadcastTargets (clients : List (Conn × ClientInfo)) (exclude : Option Conn) :
    List Conn :=
  (dictKeys clients).filter (fun c => !decide (some c = exclude))

/-! ### Handshake phase of handle_new_connection -/

/-- Outcome of the initial recv in handle_new_connection: the bytes read,
a socket timeout, or a read error. -/
inductive ReadResult
  | ok (data : List Byte)
  | timeout
  | readError
deriving DecidableEq

/-- What the handshake phase did: whether the literal REJECT token was
sent, whether the handle was closed, and the display name of the
PendingRequest created (none when no entry was created). -/
structure HandshakeOutcome where
  sentReject : Bool
  closed : Bool
  pendingName : Option PyStr
deriving DecidableEq

/-- The literal handshake tag. -/
def nameTag : PyStr := "NAME:".data

/-- Handshake logic on the decoded payload: strip it; if it starts with
the NAME: tag, keep the connection open and create a pending entry whose
name is the stripped remainder; otherwise send REJECT and close.  This is
lines 171-197 of handle_new_connection after the decode. -/
def handshakeDecoded (p : PyStr) : HandshakeOutcome :=
  let s := pyStrip p
  if nameTag.isPrefixOf s then
    { sentReject := false, closed := false, pendingName := some (pyStrip (s.drop 5)) }
  else
    { sentReject := true, closed := true, pendingName := none }

/-- The whole handshake phase: a timeout or read error closes the handle
without sending anything; read bytes are decoded leniently and handled by
handshakeDecoded. -/
def handshakePhase : ReadResult → HandshakeOutcome
  | .ok data => handshakeDecoded (utf8DecodeIgnore data)
  | .timeout => { sentReject := false, closed := true, pendingName := none }
  | .readError => { sentReject := false, closed := true, pendingName := none }

/-! ### Post-wake phase of handle_new_connection -/

/-- What the controller did after ev.wait() returned. -/
structure PostWakeOutcome where
  sentReject : Bool
  closed : Bool
  registered : Bool
deriving DecidableEq

/-- The post-wake phase, as a function of `pending.pop(pid, None)`:
none means the entry was stale/missing (already popped or cleared), some d
carries the decision field.  A missing entry just closes; a decision that
is not True sends REJECT and closes; True registers the client. -/
def postWake (info : Option (Option Bool)) : PostWakeOutcome :=
  match info with
  | none => { sentReject := false, closed := true, registered := false }
  | some d =>
    if d = some true then { sentReject := false, closed := false, registered := true }
    else { sentReject := true, closed := true, registered := false }

/-! ### Relay steps of handle_accepted_client -/

/-- One iteration of the MESSAGING relay loop. -/
inductive MsgStep
  | exitLoop
  | continueLoop
  | broadcast (msg : PyStr) (targets : List Conn)
deriving DecidableEq

/-- The MESSAGING loop body on one received payload: empty read exits;
empty stripped decode continues; a case-insensitive leave exits; anything
else broadcasts name-colon-message to everyone but the sender. -/
def messagingStep (clients : List (Conn × ClientInfo)) (sender : Conn) (name : PyStr)
    (data : List Byte) : MsgStep :=
  if data = [] then .exitLoop
  else
    let message := pyStrip (utf8DecodeIgnore data)
    if message = [] then .continueLoop
    else if pyLower message = "leave".data then .exitLoop
    else .broadcast (name ++ ": ".data ++ message) (broadcastTargets clients (some sender))

/-- One iteration of the VOICE relay loop. -/
inductive VoiceStep
  | exitLoop
  | forward (data : List Byte) (targets : List Conn)
deriving DecidableEq

/-- The VOICE loop body on one received chunk: empty read exits; a chunk
under 64 bytes whose lenient decode strips and lowercases to leave exits;
every other chunk is forwarded raw to everyone but the sender. -/
def voiceStep (clients : List (Conn × ClientInfo)) (sender : Conn)
    (data : List Byte) : VoiceStep :=
  if data = [] then .exitLoop
  else if data.length < 64 ∧ pyLower (pyStrip (utf8DecodeIgnore data)) = "leave".data then
    .exitLoop
  else .forward data (broadcastTargets clients (some sender))

/-! ### VOICE-mode entry of handle_accepted_client -/

/-- The id/name pairs enumerated by the users snapshot taken at VOICE
entry (the full current clients dict). -/
def usersSnapshot (clients : List (Conn × ClientInfo)) : List (Nat × PyStr) :=
  clients.map (fun p => (p.2.id, p.2.name))

/-- Python str.join with a comma separator. -/
def joinComma : List PyStr → PyStr
  | [] => []
  | [x] => x
  | x :: y :: xs => x ++ ',' :: joinComma (y :: xs)

/-- The control line sent to a VOICE joiner. -/
def usersLine (clients : List (Conn × ClientInfo)) : PyStr :=
  "[USERS] ".data ++
    joinComma ((usersSnapshot clients).map (fun e => natStr e.1 ++ '|' :: e.2))

/-- The join notice broadcast to the other VOICE participants. -/
def joinNotice (name : PyStr) (uid : Nat) : PyStr :=
  "[Server]: ".data ++ name ++ " (ID:".data ++ natStr uid ++ ") joined the call.".data

/-! ### The stop operator command -/

/-- Observable effects of the stop command on the two tables: the sends
and closes it performs, which pending events it sets and which decisions
it writes, and the tables it leaves behind. -/
structure StopEffects where
  rejectSends : List (Conn × PyStr)
  pendingClosed : List Conn
  eventsSet : List Nat
  decisionsWritten : List Nat
  pendingAfter : List (Nat × PendingInfo)
  shutdownSends : List (Conn × PyStr)
  clientsClosed : List Conn
  clientsAfter : List (Conn × ClientInfo)
deriving DecidableEq

/-- The stop branch of operator_cli (lines 353-384): under pending_lock,
send REJECT to every pending connection and close it, then clear the
table - no decision field is written and no event is set; under
clients_lock, send the shutdown notice to every client, close it, and
clear the registry. -/
def stopCommand (st : ServerState) : StopEffects :=
  { rejectSends := st.pending.map (fun e => (e.2.conn, "REJECT".data)),
    pendingClosed := st.pending.map (fun e => e.2.conn),
    eventsSet := [],
    decisionsWritten := [],
    pendingAfter := [],
    shutdownSends := st.clients.map (fun e => (e.1, "[Server]: Server shutting down.".data)),
    clientsClosed := st.clients.map (fun e => e.1),
    clientsAfter := [] }

/-! ### Lock-discipline traces of the broadcast engine -/

/-- Atomic actions on clients_lock and the network, in program order. -/
inductive LockAction
  | acquire
  | release
  | send (c : Conn)
  | mutate
deriving DecidableEq

/-- Action trace of broadcast_message: acquire clients_lock, send to each
target inside the held region, release.  (broadcast_audio has the
identical shape over raw bytes.) -/
def broadcastMessageTrace (clients : List (Conn × ClientInfo)) (exclude : Option Conn) :
    List LockAction :=
  .acquire :: ((broadcastTargets clients exclude).map .send ++ [.release])

/-- Action trace of broadcast_audio (same locking shape as
broadcast_message, raw bytes instead of text). -/
def broadcastAudioTrace (clients : List (Conn × ClientInfo)) (exclude : Option Conn) :
    List LockAction :=
  .acquire :: ((broadcastTargets clients exclude).map .send ++ [.release])

/-- Action trace of _disconnect_conn: acquire clients_lock; if the
connection is present, pop it (mutate) and - still inside the held
region - call broadcast_message on the remaining clients (which acquires
clients_lock again); finally release. -/
def disconnectConnTrace (clients : List (Conn × ClientInfo)) (conn : Conn) :
    List LockAction :=
  .acquire ::
    ((if dictHas clients conn then
        .mutate :: broadcastMessageTrace (dictPop clients conn) none
      else []) ++ [.release])

/-- Does some send occur at positive lock depth? -/
def sendWhileHeldAux : List LockAction → Nat → Bool
  | [], _ => false
  | .acquire :: r, d => sendWhileHeldAux r (d + 1)
  | .release :: r, d => sendWhileHeldAux r (d - 1)
  | .send _ :: r, d => decide (0 < d) || sendWhileHeldAux r d
  | .mutate :: r, d => sendWhileHeldAux r d

/-- Some send in the trace happens while clients_lock is held. -/
def sendWhileHeld (tr : List LockAction) : Bool := sendWhileHeldAux tr 0

/-- Does every send occur at positive lock depth? -/
def allSendsHeldAux : List LockAction → Nat → Bool
  | [], _ => true
  | .acquire :: r, d => allSendsHeldAux r (d + 1)
  | .release :: r, d => allSendsHeldAux r (d - 1)
  | .send _ :: r, d => decide (0 < d) && allSendsHeldAux r d
  | .mutate :: r, d => allSendsHeldAux r d

/-- Every send in the trace happens while clients_lock is held. -/
def allSendsHeld (tr : List LockAction) : Bool := allSendsHeldAux tr 0

/-- Does some acquire occur at positive lock depth (a re-acquisition of
the non-reentrant lock, i.e. self-deadlock)? -/
def acquireWhileHeldAux : List LockAction → Nat → Bool
  | [], _ => false
  | .acquire :: r, d => decide (0 < d) || acquireWhileHeldAux r (d + 1)
  | .release :: r, d => acquireWhileHeldAux r (d - 1)
  | .send _ :: r, d => acquireWhileHeldAux r d
  | .mutate :: r, d => acquireWhileHeldAux r d

/-- Some acquire in the trace happens while clients_lock is already held. -/
def acquireWhileHeld (tr : List LockAction) : Bool := acquireWhileHeldAux tr 0

/-! ### Concrete demonstration states -/

/-- A two-client registry: alice (id 1) on handle 1, bob (id 2) on handle 2. -/
def demoClients : List (Conn × ClientInfo) :=
  [(1, { id := 1, name := "alice".data, addr := (0, 0) }),
   (2, { id := 2, name := "bob".data, addr := (0, 0) })]

/-- A state with one outstanding pending request (pid 1, handle 7,
event not set, decision unset) and no clients. -/
def demoStopState : ServerState :=
  { nextUserId := 1, clients := [],
    nextPendingId := 2,
    pending := [(1, { conn := 7, name := "carol".data, addr := (0, 0),
                      eventSet := false, decision := none })] }

/-- A pending table whose single entry was already resolved (decision
written, event set) but not yet popped by its controller. -/
def demoResolvedPending : List (Nat × PendingInfo) :=
  [(1, { conn := 7, name := "carol".data, addr := (0, 0),
         eventSet := true, decision := some true })]

/-- A state with one admitted client (alice, id 1, handle 10), as left by
one register on the initial state. -/
def demoPrior : ServerState :=
  (registerClient initState 10 "alice".data (0, 0)).1

/-- The byte string b of hello. -/
def demoHello : List Byte := [104, 101, 108, 108, 111]

/-- A 5-byte chunk that is not the leave command (the bytes of hello). -/
def demoChunk : List Byte := demoHello

/-- One client registered (id 1) and one pending entry created (pid 1),
then the client disconnects and the controller pops the entry: both id
values 1 are retired. -/
def demoRetired : ServerState :=
  runOps initState [.reg 1 [] (0, 0), .createP 5 [] (0, 0), .rem 1, .popP 1]

/-- A later admission and a later pending creation. -/
def demoLaterOps : List SOp := [.reg 2 [] (0, 0), .createP 6 [] (0, 0)]

/-! ## Helper lemmas -/

theorem dropWhile_of_forall_false {α : Type} {q : α → Bool} {l : List α}
    (h : ∀ c ∈ l, q c = false) : l.dropWhile q = l := by
  cases l with
  | nil => rfl
  | cons a t => simp [List.dropWhile_cons, h a (by simp)]

theorem isPrefixOf_pyStrip {pre p : PyStr}
    (hpre : ∀ c ∈ pre, isPySpace c = false)
    (h : pre.isPrefixOf p = true) :
    pre.isPrefixOf (pyStrip p) = true := by
  rw [List.isPrefixOf_iff_prefix] at h ⊢
  obtain ⟨t, rfl⟩ := h
  cases pre with
  | nil => exact List.nil_prefix
  | cons c pre2 =>
    have hc : isPySpace c = false := hpre c (by simp)
    have hl : pyLStrip ((c :: pre2) ++ t) = (c :: pre2) ++ t := by
      simp [pyLStrip, List.dropWhile_cons, hc]
    show (c :: pre2) <+: pyRStrip (pyLStrip ((c :: pre2) ++ t))
    rw [hl]
    show (c :: pre2) <+: (((c :: pre2) ++ t).reverse.dropWhile isPySpace).reverse
    rw [List.reverse_append, List.dropWhile_append]
    by_cases he : (t.reverse.dropWhile isPySpace).isEmpty
    · rw [if_pos he]
      have hall : (c :: pre2).reverse.dropWhile isPySpace = (c :: pre2).reverse := by
        apply dropWhile_of_forall_false
        intro x hx
        exact hpre x (List.mem_reverse.mp hx)
      rw [hall, List.reverse_reverse]
    · rw [if_neg he, List.reverse_append, List.reverse_reverse]
      exact ⟨_, rfl⟩

theorem dictSet_of_not_has {α β : Type} [DecidableEq α] {d : List (α × β)} {k : α} {v : β}
    (h : dictHas d k = false) : dictSet d k v = d ++ [(k, v)] := by
  simp [dictSet, h]

theorem mem_dictSet {α β : Type} [DecidableEq α] {d : List (α × β)} {k : α} {v : β}
    {p : α × β} (h : p ∈ dictSet d k v) : p ∈ d ∨ p = (k, v) := by
  unfold dictSet at h
  split at h
  · obtain ⟨q, hq, hq2⟩ := List.mem_map.mp h
    by_cases hk : q.1 = k
    · right
      simp [hk] at hq2
      exact hq2.symm
    · left
      simp [hk] at hq2
      exact hq2 ▸ hq
  · rcases List.mem_append.mp h with h1 | h2
    · exact Or.inl h1
    · right
      simpa using h2

theorem not_mem_keys_of_not_has {α β : Type} [DecidableEq α] {d : List (α × β)} {k : α}
    (h : dictHas d k = false) : k ∉ dictKeys d := by
  intro hk
  obtain ⟨p, hp, hpk⟩ := List.mem_map.mp hk
  have ht : dictHas d k = true := by
    unfold dictHas
    exact List.any_eq_true.mpr ⟨p, hp, by simp [hpk]⟩
  rw [ht] at h
  cases h

theorem dictKeys_resolveTable (p : List (Nat × PendingInfo)) (pid : Nat) (acc : Bool) :
    dictKeys (resolveTable p pid acc) = dictKeys p := by
  induction p with
  | nil => rfl
  | cons e t ih =>
    by_cases h : e.1 = pid
    · simpa [resolveTable, dictKeys, h] using ih
    · simpa [resolveTable, dictKeys, h] using ih

theorem allSendsHeldAux_map_send (ts : List Conn) (r : List LockAction) (d : Nat)
    (hd : 0 < d) : allSendsHeldAux (ts.map .send ++ r) d = allSendsHeldAux r d := by
  induction ts with
  | nil => rfl
  | cons c ts2 ih => simp [allSendsHeldAux, hd, ih]

/-! ## Claims -/

/-- Claim C1, as stated, is false of the code: in broadcast_message the
whole fan-out loop, sendall included, runs inside the with clients_lock
block, so with two registered clients a send happens while the lock is
held. -/
theorem C1_counterexample :
    ¬ (sendWhileHeld (broadcastMessageTrace demoClients none) = false) := by decide

/-- Claim C1 (amended): clients_lock IS held while every broadcast send
is in progress - broadcast_message and broadcast_audio perform all their
sendall calls inside the held region - and _disconnect_conn re-acquires
clients_lock (via its nested broadcast_message) while already holding it,
which self-deadlocks the non-reentrant lock whenever a present client is
removed. -/
theorem C1_sends_under_lock (clients : List (Conn × ClientInfo)) (exclude : Option Conn)
    (conn : Conn) (hconn : dictHas clients conn = true) :
    allSendsHeld (broadcastMessageTrace clients exclude) = true ∧
    allSendsHeld (broadcastAudioTrace clients exclude) = true ∧
    acquireWhileHeld (disconnectConnTrace clients conn) = true := by
  refine ⟨?_, ?_, ?_⟩
  · show allSendsHeldAux (.acquire :: ((broadcastTargets clients exclude).map .send ++ [.release])) 0 = true
    rw [show allSendsHeldAux (.acquire :: ((broadcastTargets clients exclude).map .send ++ [.release])) 0
        = allSendsHeldAux ((broadcastTargets clients exclude).map .send ++ [.release]) 1 from rfl]
    rw [allSendsHeldAux_map_send _ _ 1 (by omega)]
    rfl
  · show allSendsHeldAux (.acquire :: ((broadcastTargets clients exclude).map .send ++ [.release])) 0 = true
    rw [show allSendsHeldAux (.acquire :: ((broadcastTargets clients exclude).map .send ++ [.release])) 0
        = allSendsHeldAux ((broadcastTargets clients exclude).map .send ++ [.release]) 1 from rfl]
    rw [allSendsHeldAux_map_send _ _ 1 (by omega)]
    rfl
  · simp [disconnectConnTrace, hconn, broadcastMessageTrace, acquireWhileHeld,
      acquireWhileHeldAux]

/-- Witness for C1_sends_under_lock at the two-client registry. -/
theorem C1_witness :
    dictHas demoClients 1 = true ∧
    allSendsHeld (broadcastMessageTrace demoClients none) = true ∧
    acquireWhileHeld (disconnectConnTrace demoClients 1) = true :=
  ⟨by decide, (C1_sends_under_lock demoClients none 1 (by decide)).1,
   (C1_sends_under_lock demoClients none 1 (by decide)).2.2⟩

/-- Claim C2, as stated, is false of the code: the stop command neither
writes the decision nor sets the event of the outstanding pending entry
(pid 1 of demoStopState), so its controller is not woken. -/
theorem C2_counterexample :
    ¬ (1 ∈ (stopCommand demoStopState).decisionsWritten ∧
       1 ∈ (stopCommand demoStopState).eventsSet) := by decide

/-- Claim C2 (amended): the stop command sends the literal REJECT to
every outstanding pending connection and closes it, then clears the
table; it writes no decision and sets no event, so handshake controllers
blocked on ev.wait() are never woken by it. -/
theorem C2_stop_rejects_without_waking (st : ServerState) (pid : Nat) (e : PendingInfo)
    (h : (pid, e) ∈ st.pending) :
    (e.conn, "REJECT".data) ∈ (stopCommand st).rejectSends ∧
    e.conn ∈ (stopCommand st).pendingClosed ∧
    (stopCommand st).pendingAfter = [] ∧
    (stopCommand st).eventsSet = [] ∧
    (stopCommand st).decisionsWritten = [] :=
  ⟨List.mem_map.mpr ⟨(pid, e), h, rfl⟩, List.mem_map.mpr ⟨(pid, e), h, rfl⟩, rfl, rfl, rfl⟩

/-- Witness for C2_stop_rejects_without_waking at the one-entry state. -/
theorem C2_witness :
    ((7 : Conn), "REJECT".data) ∈ (stopCommand demoStopState).rejectSends ∧
    (stopCommand demoStopState).eventsSet = [] :=
  ⟨(C2_stop_rejects_without_waking demoStopState 1
      ({ conn := 7, name := "carol".data, addr := (0, 0), eventSet := false,
         decision := none } : PendingInfo)
      (by decide)).1,
   (C2_stop_rejects_without_waking demoStopState 1
      ({ conn := 7, name := "carol".data, addr := (0, 0), eventSet := false,
         decision := none } : PendingInfo)
      (by decide)).2.2.2.1⟩

/-- Claim C3, as stated, is false of the code: a handshake-read timeout
closes the handle without sending the REJECT token. -/
theorem C3_counterexample :
    ¬ ((handshakePhase .timeout).sentReject = true) := by decide

/-- Claim C3 (amended): on a malformed handshake no PendingRequest is
created and the handle is closed, but the REJECT token is sent only in
the bad-payload case - a timeout or read error closes the handle
silently. -/
theorem C3_malformed_handshake (r : ReadResult)
    (h : r = .timeout ∨ r = .readError ∨
         ∃ data, r = .ok data ∧
           nameTag.isPrefixOf (pyStrip (utf8DecodeIgnore data)) = false) :
    (handshakePhase r).closed = true ∧
    (handshakePhase r).pendingName = none ∧
    ((handshakePhase r).sentReject = true ↔ ∃ data, r = .ok data) := by
  rcases h with rfl | rfl | ⟨data, rfl, hbad⟩
  · refine ⟨rfl, rfl, ?_⟩
    simp [handshakePhase]
  · refine ⟨rfl, rfl, ?_⟩
    simp [handshakePhase]
  · refine ⟨?_, ?_, ?_⟩ <;> simp [handshakePhase, handshakeDecoded, hbad]

/-- Witness for C3_malformed_handshake at the timeout input. -/
theorem C3_witness :
    (handshakePhase .timeout).closed = true ∧
    (handshakePhase .timeout).pendingName = none ∧
    ((handshakePhase .timeout).sentReject = true ↔ ∃ data, ReadResult.timeout = .ok data) :=
  C3_malformed_handshake .timeout (Or.inl rfl)

/-- Claim C4, as stated, is false of the code: the joining client is
registered before the VOICE handler snapshots the registry, so the
snapshot behind the sent [USERS] line includes the joiner itself and is
not equal to the set of previously admitted clients. -/
theorem C4_counterexample :
    ¬ (usersSnapshot (registerClient demoPrior 20 "bob".data (0, 0)).1.clients =
       usersSnapshot demoPrior.clients) := by decide

/-- Claim C4 (amended): on VOICE entry the [USERS] line enumerates all
currently registered clients - the previously admitted ones followed by
the joining client itself - and the join notice is broadcast to exactly
the previously admitted clients (the joiner is excluded). -/
theorem C4_voice_entry_lists_joiner (st : ServerState) (conn : Conn) (name : PyStr)
    (addr : Nat × Nat) (hfresh : dictHas st.clients conn = false) :
    usersSnapshot (registerClient st conn name addr).1.clients
      = usersSnapshot st.clients ++ [((registerClient st conn name addr).2, name)] ∧
    usersLine (registerClient st conn name addr).1.clients
      = "[USERS] ".data ++
        joinComma ((usersSnapshot st.clients ++ [((registerClient st conn name addr).2, name)]).map
          (fun e => natStr e.1 ++ '|' :: e.2)) ∧
    broadcastTargets (registerClient st conn name addr).1.clients (some conn)
      = dictKeys st.clients ∧
    (registerClient st conn name addr).2 = st.nextUserId := by
  have hset : (registerClient st conn name addr).1.clients
      = st.clients ++ [(conn, { id := st.nextUserId, name := name, addr := addr })] := by
    simp [registerClient, dictSet_of_not_has hfresh]
  have hsnap : usersSnapshot (registerClient st conn name addr).1.clients
      = usersSnapshot st.clients ++ [((registerClient st conn name addr).2, name)] := by
    rw [hset]
    simp [usersSnapshot, registerClient]
  refine ⟨hsnap, ?_, ?_, rfl⟩
  · rw [usersLine, hsnap]
  · rw [hset]
    unfold broadcastTargets dictKeys
    rw [List.map_append, List.filter_append]
    have h1 : (st.clients.map Prod.fst).filter (fun c => !decide (some c = some conn))
        = st.clients.map Prod.fst := by
      apply List.filter_eq_self.mpr
      intro a ha
      have : a ≠ conn := by
        intro heq
        exact not_mem_keys_of_not_has hfresh (heq ▸ ha)
      simp [this]
    have h2 : (([(conn, ({ id := st.nextUserId, name := name, addr := addr } :
        ClientInfo))] : List (Conn × ClientInfo)).map
        Prod.fst).filter (fun c => !decide (some c = some conn)) = [] := by
      simp
    rw [h1, h2, List.append_nil]

/-- Witness for C4_voice_entry_lists_joiner: bob (handle 20) joins a
registry holding alice. -/
theorem C4_witness :
    dictHas demoPrior.clients 20 = false ∧
    usersSnapshot (registerClient demoPrior 20 "bob".data (0, 0)).1.clients
      = usersSnapshot demoPrior.clients
        ++ [((registerClient demoPrior 20 "bob".data (0, 0)).2, "bob".data)] ∧
    broadcastTargets (registerClient demoPrior 20 "bob".data (0, 0)).1.clients (some 20)
      = dictKeys demoPrior.clients :=
  ⟨by decide, (C4_voice_entry_lists_joiner demoPrior 20 "bob".data (0, 0) (by decide)).1,
   (C4_voice_entry_lists_joiner demoPrior 20 "bob".data (0, 0) (by decide)).2.2.1⟩

/-- Claim C5, as stated, is false of the code: a controller waking to a
stale/missing pending entry (pending.pop returned None) closes the handle
without sending the REJECT token. -/
theorem C5_counterexample :
    ¬ ((postWake none).sentReject = true) := by decide

/-- Claim C5 (amended): a controller that wakes with any non-accepted
outcome closes the handle and registers no client; the REJECT token is
sent exactly when the popped entry was still present (decision None or
False) - a stale/missing entry is closed silently. -/
theorem C5_nonaccepted_wake (info : Option (Option Bool))
    (h : ∀ d, info = some d → d ≠ some true) :
    (postWake info).closed = true ∧ (postWake info).registered = false ∧
    ((postWake info).sentReject = true ↔ ∃ d, info = some d) := by
  cases info with
  | none => simp [postWake]
  | some d =>
    have hd := h d rfl
    simp [postWake, hd]

/-- Witness for C5_nonaccepted_wake at an explicit operator reject. -/
theorem C5_witness :
    (postWake (some (some false))).closed = true ∧
    (postWake (some (some false))).registered = false ∧
    ((postWake (some (some false))).sentReject = true ↔
      ∃ d, (some (some false) : Option (Option Bool)) = some d) :=
  C5_nonaccepted_wake (some (some false)) (by
    intro d hd
    injection hd with h2
    subst h2
    decide)

/-- Claim C6: in MESSAGING mode a payload whose stripped decode is empty
is ignored (the loop continues), and a non-empty, non-leave payload is
broadcast as name-colon-stripped-message to exactly the registered
clients other than the sender, never back to the sender. -/
theorem C6_messaging_relay (clients : List (Conn × ClientInfo)) (sender : Conn)
    (name : PyStr) (data : List Byte) :
    (data ≠ [] → pyStrip (utf8DecodeIgnore data) = [] →
       messagingStep clients sender name data = .continueLoop) ∧
    (data ≠ [] → pyStrip (utf8DecodeIgnore data) ≠ [] →
     pyLower (pyStrip (utf8DecodeIgnore data)) ≠ "leave".data →
       messagingStep clients sender name data =
         .broadcast (name ++ ": ".data ++ pyStrip (utf8DecodeIgnore data))
           (broadcastTargets clients (some sender)) ∧
       sender ∉ broadcastTargets clients (some sender) ∧
       ∀ c, c ∈ dictKeys clients → c ≠ sender →
         c ∈ broadcastTargets clients (some sender)) := by
  constructor
  · intro hne hemp
    simp [messagingStep, hne, hemp]
  · intro hne hemp hlv
    refine ⟨?_, ?_, ?_⟩
    · simp [messagingStep, hne, hemp, hlv]
    · intro hmem
      simp [broadcastTargets, List.mem_filter] at hmem
    · intro c hc hcs
      rw [broadcastTargets, List.mem_filter]
      exact ⟨hc, by simp [hcs]⟩

/-- Witness for C6_messaging_relay: alice (handle 1) sends hello to a
two-client registry; bob (handle 2) is sent exactly alice-colon-hello. -/
theorem C6_witness :
    messagingStep demoClients 1 "alice".data demoHello =
      .broadcast ("alice: hello".data) [2] := by
  have h := (C6_messaging_relay demoClients 1 "alice".data demoHello).2
    (by decide) (by decide) (by decide)
  rw [h.1]
  decide

/-- Claim C7: in VOICE mode an empty read exits the loop, a chunk under
64 bytes whose lenient decode strips and lowercases to leave exits the
loop, and every other chunk is forwarded unmodified to exactly the
registered clients other than the sender. -/
theorem C7_voice_relay (clients : List (Conn × ClientInfo)) (sender : Conn)
    (data : List Byte) :
    (data = [] → voiceStep clients sender data = .exitLoop) ∧
    (data ≠ [] → data.length < 64 →
       pyLower (pyStrip (utf8DecodeIgnore data)) = "leave".data →
       voiceStep clients sender data = .exitLoop) ∧
    (data ≠ [] →
     ¬ (data.length < 64 ∧ pyLower (pyStrip (utf8DecodeIgnore data)) = "leave".data) →
       voiceStep clients sender data = .forward data (broadcastTargets clients (some sender)) ∧
       sender ∉ broadcastTargets clients (some sender) ∧
       ∀ c, c ∈ dictKeys clients → c ≠ sender →
         c ∈ broadcastTargets clients (some sender)) := by
  refine ⟨?_, ?_, ?_⟩
  · intro hemp
    simp [voiceStep, hemp]
  · intro hne hlen hlv
    simp [voiceStep, hne, hlen, hlv]
  · intro hne hnl
    refine ⟨?_, ?_, ?_⟩
    · simp [voiceStep, hne, hnl]
    · intro hmem
      simp [broadcastTargets, List.mem_filter] at hmem
    · intro c hc hcs
      rw [broadcastTargets, List.mem_filter]
      exact ⟨hc, by simp [hcs]⟩

/-- Witness for C7_voice_relay: a 5-byte non-leave chunk from alice
(handle 1) is forwarded raw to bob (handle 2) only. -/
theorem C7_witness :
    voiceStep demoClients 1 demoChunk = .forward demoChunk [2] := by
  have h := (C7_voice_relay demoClients 1 demoChunk).2.2 (by decide) (by decide)
  rw [h.1]
  decide

/-- Claim C8, as stated, is false of the code: an accept/reject naming a
pid that was already resolved but is still in the table (its controller
has not yet popped it) is not a no-op - the decision is overwritten. -/
theorem C8_counterexample :
    ¬ ((resolveCmd demoResolvedPending 1 false).1 = demoResolvedPending) := by decide

/-- Claim C8 (amended): an accept/reject operator command naming a pid
absent from the pending table (never created, or already popped by its
controller) is a no-op reported as such: the table is unchanged and the
operator sees the no-such-pid message; a pid still present is re-resolved
even if a decision was already written. -/
theorem C8_resolve_absent_noop (pending : List (Nat × PendingInfo)) (pid : Nat)
    (accepted : Bool) (h : dictHas pending pid = false) :
    resolveCmd pending pid accepted = (pending, "No such pending pid".data) := by
  simp [resolveCmd, h]

/-- Witness for C8_resolve_absent_noop at an unknown pid. -/
theorem C8_witness :
    dictHas demoResolvedPending 99 = false ∧
    resolveCmd demoResolvedPending 99 true = (demoResolvedPending, "No such pending pid".data) :=
  ⟨by decide, C8_resolve_absent_noop demoResolvedPending 99 true (by decide)⟩

theorem counters_mono_step (st : ServerState) (op : SOp) :
    st.nextUserId ≤ (stepOp st op).nextUserId ∧
    st.nextPendingId ≤ (stepOp st op).nextPendingId := by
  cases op <;>
    simp [stepOp, registerClient, createPending, removeClient, popPending, clearTables]

theorem dictKeys_resolveCmd (pending : List (Nat × PendingInfo)) (pid : Nat) (acc : Bool) :
    dictKeys (resolveCmd pending pid acc).1 = dictKeys pending := by
  unfold resolveCmd
  split
  · exact dictKeys_resolveTable pending pid acc
  · rfl

theorem step_preserves_fresh {st : ServerState} (op : SOp) {i p : Nat}
    (hci : i ∉ clientIds st) (hcn : i < st.nextUserId)
    (hpi : p ∉ pendingIds st) (hpn : p < st.nextPendingId) :
    i ∉ clientIds (stepOp st op) ∧ i < (stepOp st op).nextUserId ∧
    p ∉ pendingIds (stepOp st op) ∧ p < (stepOp st op).nextPendingId := by
  cases op with
  | reg c n a =>
    refine ⟨?_, by simp [stepOp, registerClient]; omega, hpi, hpn⟩
    intro hmem
    simp only [stepOp, registerClient, clientIds] at hmem
    obtain ⟨e, he, hid⟩ := List.mem_map.mp hmem
    rcases mem_dictSet he with h1 | h2
    · exact hci (List.mem_map.mpr ⟨e, h1, hid⟩)
    · subst h2
      simp at hid
      omega
  | rem c =>
    refine ⟨?_, hcn, hpi, hpn⟩
    intro hmem
    simp only [stepOp, removeClient, clientIds, dictPop] at hmem
    obtain ⟨e, he, hid⟩ := List.mem_map.mp hmem
    exact hci (List.mem_map.mpr ⟨e, (List.mem_filter.mp he).1, hid⟩)
  | createP c n a =>
    refine ⟨hci, hcn, ?_, by simp [stepOp, createPending]; omega⟩
    intro hmem
    simp only [stepOp, createPending, pendingIds, dictKeys] at hmem
    obtain ⟨e, he, hid⟩ := List.mem_map.mp hmem
    rcases mem_dictSet he with h1 | h2
    · exact hpi (List.mem_map.mpr ⟨e, h1, hid⟩)
    · subst h2
      simp at hid
      omega
  | resolveP pid acc =>
    refine ⟨hci, hcn, ?_, hpn⟩
    intro hmem
    have hk : pendingIds (stepOp st (.resolveP pid acc)) = pendingIds st := by
      simp only [stepOp, pendingIds]
      exact dictKeys_resolveCmd st.pending pid acc
    rw [hk] at hmem
    exact hpi hmem
  | popP pid =>
    refine ⟨hci, hcn, ?_, hpn⟩
    intro hmem
    simp only [stepOp, popPending, pendingIds, dictKeys, dictPop] at hmem
    obtain ⟨e, he, hid⟩ := List.mem_map.mp hmem
    exact hpi (List.mem_map.mpr ⟨e, (List.mem_filter.mp he).1, hid⟩)
  | stopAll =>
    refine ⟨?_, hcn, ?_, hpn⟩ <;> simp [stepOp, clearTables, clientIds, pendingIds, dictKeys]

/-- Claim C9: client ids and pending ids are assigned monotonically from
their own counters, and an id that is absent from its table and below its
counter (every removed id is such) never reappears in that table and is
never assigned again, over any further sequence of register, remove,
create, resolve, pop, and stop operations. -/
theorem C9_ids_never_reused (st : ServerState) (ops : List SOp) (i p : Nat)
    (hci : i ∉ clientIds st) (hcn : i < st.nextUserId)
    (hpi : p ∉ pendingIds st) (hpn : p < st.nextPendingId) :
    i ∉ clientIds (runOps st ops) ∧ i < (runOps st ops).nextUserId ∧
    p ∉ pendingIds (runOps st ops) ∧ p < (runOps st ops).nextPendingId ∧
    st.nextUserId ≤ (runOps st ops).nextUserId ∧
    st.nextPendingId ≤ (runOps st ops).nextPendingId := by
  induction ops generalizing st with
  | nil => exact ⟨hci, hcn, hpi, hpn, le_refl _, le_refl _⟩
  | cons op rest ih =>
    have hstep := step_preserves_fresh op hci hcn hpi hpn
    have hmono := counters_mono_step st op
    have hrun : runOps st (op :: rest) = runOps (stepOp st op) rest := rfl
    rw [hrun]
    have hres := ih (stepOp st op) hstep.1 hstep.2.1 hstep.2.2.1 hstep.2.2.2
    exact ⟨hres.1, hres.2.1, hres.2.2.1, hres.2.2.2.1,
      le_trans hmono.1 hres.2.2.2.2.1, le_trans hmono.2 hres.2.2.2.2.2⟩

/-- Witness for C9_ids_never_reused: both ids 1 are retired in
demoRetired and stay absent after a later admission and pending
creation. -/
theorem C9_witness :
    (1 ∉ clientIds demoRetired ∧ 1 < demoRetired.nextUserId ∧
     1 ∉ pendingIds demoRetired ∧ 1 < demoRetired.nextPendingId) ∧
    1 ∉ clientIds (runOps demoRetired demoLaterOps) ∧
    1 ∉ pendingIds (runOps demoRetired demoLaterOps) :=
  ⟨⟨by decide, by decide, by decide, by decide⟩,
   (C9_ids_never_reused demoRetired demoLaterOps 1 1
      (by decide) (by decide) (by decide) (by decide)).1,
   (C9_ids_never_reused demoRetired demoLaterOps 1 1
      (by decide) (by decide) (by decide) (by decide)).2.2.1⟩

/-- Claim C10: any decoded handshake payload beginning with the literal
NAME: tag is treated as a valid handshake - no REJECT, no close, and a
PendingRequest is created whose display name is the stripped remainder -
even when that remainder strips to the empty string, in which case the
display name is empty; no validation of name content, length, or
non-emptiness happens. -/
theorem C10_empty_name_accepted (p : PyStr)
    (h : nameTag.isPrefixOf p = true) :
    (handshakeDecoded p).sentReject = false ∧
    (handshakeDecoded p).closed = false ∧
    (handshakeDecoded p).pendingName = some (pyStrip ((pyStrip p).drop 5)) ∧
    (pyStrip ((pyStrip p).drop 5) = [] → (handshakeDecoded p).pendingName = some []) := by
  have hs : nameTag.isPrefixOf (pyStrip p) = true :=
    isPrefixOf_pyStrip (by decide) h
  refine ⟨?_, ?_, ?_, ?_⟩
  · simp [handshakeDecoded, hs]
  · simp [handshakeDecoded, hs]
  · simp [handshakeDecoded, hs]
  · intro he
    simp [handshakeDecoded, hs, he]

/-- Witness for C10_empty_name_accepted: the bare NAME: payload creates a
pending entry with the empty display name. -/
theorem C10_witness :
    nameTag.isPrefixOf ("NAME:".data) = true ∧
    (handshakeDecoded "NAME:".data).pendingName = some [] :=
  ⟨by decide, (C10_empty_name_accepted "NAME:".data (by decide)).2.2.2 (by decide)⟩

end GroupComm
